import Mathlib

/-!
Verification of the conversational-memory subsystem of `mod-arcana-ai`.

The development shallowly embeds the two source files that carry all of the
state and algorithmic content:

* `src/lib/memory.ts` — the `MemoryManager` facade over a Redis sorted set
  (history store) and a Pinecone vector index (`vectorSearch`, including its
  inner `truncateText` helper).
* `src/app/api/chat/[chatId]/route.ts` — the request handler: the prompt
  template, the word-overlap repetition detector, the parallel
  rate-limit/persona-load/user-turn-write stage, and the streaming stage
  with its persistence writes.

JavaScript strings are modelled as Lean `String`s; the JS string
operations used by the source (`split`, `toLowerCase`, `trim`, `slice`,
`join`) are re-implemented below with JS semantics so that every
definition is executable by the kernel.  The Redis sorted set backing the
history store is modelled with its documented semantics: a set of
(member, score) pairs keyed by member, kept ordered by score with ties
ordered lexicographically by member; `ZADD` of an existing member updates
the score of that member.
-/

namespace Arcana

/-! ## JavaScript string primitives -/

/-- Lower-casing as applied by `String.prototype.toLowerCase` on the ASCII
range (the only range the claims exercise); modelled character-wise. -/
def jsToLower (s : String) : String :=
  ⟨s.data.map Char.toLower⟩

/-- Core of splitting a character list at every character satisfying `p`.
Returns the first field together with the list of later fields, so the
result is always a non-empty list of fields (as `String.prototype.split`
with a single-character separator: `"".split(x) = [""]`, separators at the
boundaries produce empty boundary fields). -/
def splitPredCore (p : Char → Bool) : List Char → List Char × List (List Char)
  | [] => ([], [])
  | c :: cs =>
    let r := splitPredCore p cs
    if p c then ([], r.1 :: r.2) else (c :: r.1, r.2)

/-- All fields of splitting at every character satisfying `p`. -/
def splitFields (p : Char → Bool) (l : List Char) : List (List Char) :=
  (splitPredCore p l).1 :: (splitPredCore p l).2

/-- Collapse helper for `split(/\s+/)`: a run of k separator characters
yields k-1 empty internal fields under character-wise splitting, which the
regex form does not produce; this drops empty fields everywhere except in
the final position (the leading field is handled by the caller). -/
def collapseTail : List (List Char) → List (List Char)
  | [] => []
  | [w] => [w]
  | w :: ws => if w = [] then collapseTail ws else w :: collapseTail ws

/-- JS `text.split(/\s+/)`: fields are the maximal non-whitespace segments,
with a single empty field at a boundary when the text starts or ends with
whitespace, and `"".split(/\s+/) = [""]`. -/
def jsSplitWS (s : String) : List String :=
  let r := splitPredCore Char.isWhitespace s.data
  (r.1 :: collapseTail r.2).map (fun w => ⟨w⟩)

/-- JS `Array.prototype.join(sep)` over strings (`[].join(sep) = ""`). -/
def joinWith (sep : String) : List String → String
  | [] => ""
  | [x] => x
  | x :: xs => x ++ sep ++ joinWith sep xs

/-- Character-level form of joining with single spaces, used to reason
about `join(' ')` through `String.data`. -/
def charJoinSp : List (List Char) → List Char
  | [] => []
  | [w] => w
  | w :: ws => w ++ ' ' :: charJoinSp ws

/-- JS `arr.slice(-n)`: the last `n` elements (all of them when the array
is shorter than `n`). -/
def jsSliceLast (l : List α) (n : Nat) : List α :=
  l.drop (l.length - n)

/-- Whether `d` is a prefix of `l`, as a boolean. -/
def frontMatches : List Char → List Char → Bool
  | [], _ => true
  | _ :: _, [] => false
  | d :: ds, c :: cs => d == c && frontMatches ds cs

/-- Fuelled splitter for a non-empty separator string: splits at each
(leftmost, non-overlapping) occurrence of `d`.  Each recursive call
consumes at least one character, so `fuel = length of the list` suffices;
the fuel-exhausted branch is unreachable. -/
def splitOnListF (d : List Char) : Nat → List Char → List (List Char)
  | _, [] => [[]]
  | 0, l => [l]
  | fuel + 1, c :: cs =>
    if frontMatches d (c :: cs) then
      [] :: splitOnListF d fuel ((c :: cs).drop d.length)
    else
      match splitOnListF d fuel cs with
      | [] => [[c]]
      | w :: ws => (c :: w) :: ws

/-- JS `String.prototype.split(delimiter)` for a string delimiter: with the
empty delimiter the string splits into its characters, otherwise at each
occurrence of the delimiter. -/
def jsSplit (s : String) (delimiter : String) : List String :=
  if delimiter.data = [] then s.data.map (fun c => ⟨[c]⟩)
  else (splitOnListF delimiter.data s.data.length s.data).map (fun w => ⟨w⟩)

/-- JS `String.prototype.trim`: strip whitespace from both ends. -/
def trimStr (s : String) : String :=
  ⟨((s.data.dropWhile Char.isWhitespace).reverse.dropWhile Char.isWhitespace).reverse⟩

/-! ## The Redis sorted set backing the history store

`src/lib/memory.ts` talks to Upstash Redis through `zadd`, `zrange
(byScore)` and `exists`.  A sorted set holds at most one entry per member;
entries are ordered by score, ties ordered lexicographically by member.
`ZADD key score member` inserts the member or, when it is already present,
updates its score. -/

/-- One sorted-set entry: a member string with its order score.  Scores in
the source are `Date.now()` timestamps or small seed counters, both
non-negative integers. -/
structure Entry where
  member : String
  score : Nat
deriving DecidableEq

/-- Strict lexicographic order on character lists (by code point). -/
def charListLtb : List Char → List Char → Bool
  | [], [] => false
  | [], _ :: _ => true
  | _ :: _, [] => false
  | a :: as, b :: bs =>
    Nat.blt a.toNat b.toNat || (a == b && charListLtb as bs)

/-- Strict lexicographic order on strings. -/
def strLtb (a b : String) : Bool :=
  charListLtb a.data b.data

/-- Redis sorted-set ordering: by score, ties lexicographically by member. -/
def entryLeb (a b : Entry) : Bool :=
  Nat.blt a.score b.score ||
    (a.score == b.score && (a.member == b.member || strLtb a.member b.member))

/-- Ordered insertion of an entry into a (sorted) entry list. -/
def insertEntry (e : Entry) : List Entry → List Entry
  | [] => [e]
  | x :: xs => if entryLeb e x then e :: x :: xs else x :: insertEntry e xs

/-- Effect of `ZADD` on the entry list of one key: an existing occurrence of the member is
removed (its score is being updated) and the entry is re-inserted at the
position given by its new score. -/
def zaddOne (l : List Entry) (score : Nat) (member : String) : List Entry :=
  insertEntry ⟨member, score⟩ (l.filter (fun e => e.member != member))

/-- Semantics of `ZRANGE key min max BYSCORE`: the members whose score lies in the
inclusive range, in sorted-set order. -/
def zrangeByScore (l : List Entry) (minScore maxScore : Nat) : List String :=
  (l.filter (fun e => decide (minScore ≤ e.score) && decide (e.score ≤ maxScore))).map
    (fun e => e.member)

/-- The whole history store: one sorted set per string key.  A key with no
entries is absent (`EXISTS` is false exactly when the list is empty). -/
def Store := String → List Entry

/-- The store with no keys. -/
def emptyStore : Store := fun _ => []

/-- Point update of the sorted set of one key with a `ZADD`. -/
def zaddStore (st : Store) (key : String) (score : Nat) (member : String) : Store :=
  fun k => if k = key then zaddOne (st key) score member else st k

/-! ## `MemoryManager` (src/lib/memory.ts)

The store and the current `Date.now()` value are passed explicitly; the
remote calls of the TypeScript methods become pure transformations of the
store.  A JavaScript `undefined` in `CompanionKey.userId` (the case the
guards of `writeToHistory` and `readLatestHistory` test for) is modelled
as `Option.none`; interpolating `undefined` into a template literal
produces the text `"undefined"`. -/

/-- The conversation key triple.  `userId` is an `Option` because the
guards in the source explicitly test `typeof companionKey.userId ==
"undefined"`. -/
structure CompanionKey where
  companionName : String
  modelName : String
  userId : Option String

/-- Template-literal interpolation of a possibly-`undefined` value. -/
def jsShow : Option String → String
  | none => "undefined"
  | some s => s

/-- Embedding of `generateRedisCompanionKey`: the derived history-store key
`` `${companionName}-${modelName}-${userId}` ``. -/
def generateRedisCompanionKey (companionKey : CompanionKey) : String :=
  companionKey.companionName ++ "-" ++ companionKey.modelName ++ "-" ++
    jsShow companionKey.userId

/-- Embedding of `writeToHistory(text, companionKey)`: on a malformed key (undefined
`userId`) log and return the string `""` without touching the store;
otherwise `ZADD` the text with score `Date.now()` and return the `zadd`
result (the number of newly added members: 0 when the member existed and
only its score was updated, 1 otherwise). -/
def writeToHistory (st : Store) (now : Nat) (text : String)
    (companionKey : CompanionKey) : Store × (String ⊕ Nat) :=
  match companionKey.userId with
  | none => (st, Sum.inl "")
  | some _ =>
    let key := generateRedisCompanionKey companionKey
    (zaddStore st key now text,
     Sum.inr (if (st key).any (fun e => e.member == text) then 0 else 1))

/-- Embedding of `readLatestHistory(companionKey)`: on a malformed key return `""`;
otherwise `ZRANGE` the scores `0 .. Date.now()`, keep the final 100
members (`slice(-100)`), reverse, then reverse again and join with
newlines — both reversals are kept from the source. -/
def readLatestHistory (st : Store) (now : Nat)
    (companionKey : CompanionKey) : String :=
  match companionKey.userId with
  | none => ""
  | some _ =>
    let key := generateRedisCompanionKey companionKey
    let result := zrangeByScore (st key) 0 now
    let result := (jsSliceLast result 100).reverse
    joinWith "\n" result.reverse

/-- The seeding loop of `seedChatHistory`: `ZADD` each line with the
running counter as score, starting from the given counter value. -/
def seedLoop (key : String) : Store → List String → Nat → Store
  | st, [], _ => st
  | st, line :: rest, counter =>
      seedLoop key (zaddStore st key counter line) rest (counter + 1)

/-- Embedding of `seedChatHistory(seedContent, delimiter, companionKey)`: no key guard;
if the key `EXISTS` the method returns early, otherwise it splits the seed
content on the delimiter and writes each line with scores 0, 1, 2, ….
The TypeScript function has no `return` with a value on either path, so
its JavaScript result is `undefined` on both; the second component
records that result (`none` = `undefined`). -/
def seedChatHistory (st : Store) (seedContent : String) (delimiter : String)
    (companionKey : CompanionKey) : Store × Option Bool :=
  let key := generateRedisCompanionKey companionKey
  if st key ≠ [] then (st, none)
  else
    let content := jsSplit seedContent delimiter
    (seedLoop key st content 0, none)

/-- Embedding of `truncateText` (the closure inside `vectorSearch`): estimate the token
count as `words.length * 1.3`; return the text unchanged when the estimate
is within `maxTokens`, otherwise join the first `floor(maxTokens / 1.3)`
words with single spaces.  The comparisons are exact here: for the
operands the source can produce, IEEE-754 evaluation of
`words.length * 1.3 <= maxTokens` and `Math.floor(maxTokens / 1.3)`
coincides with the rational arithmetic `13 * length ≤ 10 * maxTokens` and
`(10 * maxTokens) / 13`. -/
def truncateText (text : String) (maxTokens : Nat) : String :=
  let words := jsSplitWS text
  if 13 * words.length ≤ 10 * maxTokens then text
  else joinWith " " (words.take (10 * maxTokens / 13))

/-- Embedding of `vectorSearch(recentChatHistory, companionFileName)`: constructing the
`PineconeStore` wrapper is pure; the embedding of the query text and the
index query both happen inside the awaited `similaritySearch` call, which
is the only statement inside the `try`.  That call is abstracted as an
oracle returning either the retrieved documents (their page contents) or
an error; the `catch` converts an error into the empty result. -/
def vectorSearch (similaritySearch : String → Except String (List String))
    (recentChatHistory : String) : Except String (List String) :=
  let truncatedHistory := truncateText recentChatHistory 8000
  match similaritySearch truncatedHistory with
  | Except.ok similarDocs => Except.ok similarDocs
  | Except.error _ => Except.ok []

/-! ## The chat route (src/app/api/chat/[chatId]/route.ts) -/

/-- The constant `CONFIG.TIMEOUT_MS`. -/
def CONFIG_TIMEOUT_MS : Nat := 30000

/-- The constant `CONFIG.MAX_LENGTH`. -/
def CONFIG_MAX_LENGTH : Nat := 300

/-- One relational `message` row as created by the route. -/
structure MessageRec where
  content : String
  role : String
  userId : String
  companionId : String
deriving DecidableEq

/-- Word list used by the repetition check: the content is lower-cased,
split on the literal space character `" "` (not on general whitespace) and
empty fragments are dropped. -/
def jsWords (s : String) : List String :=
  ((splitFields (fun c => c == ' ') (jsToLower s).data).map
      (fun w => (⟨w⟩ : String))).filter (fun w => 0 < w.length)

/-- Multiset word overlap: sum of `min(countInMsg, countInPrompt)` over the
distinct words of the message side (words absent from the prompt side
contribute `min(count, 0) = 0`, as in the map iteration of the source). -/
def commonWordCount (msgWords promptWords : List String) : Nat :=
  (msgWords.dedup.map
      (fun w => min (msgWords.count w) (promptWords.count w))).sum

/-- The similarity test for one recent message: overlap divided by the
longer side exceeds 0.6.  Stated with integers: `common / maxLen > 0.6`
iff `5 * common > 3 * maxLen`, and for `maxLen = 0` the JS comparison
`NaN > 0.6` is false, matching `5 * 0 > 3 * 0`. -/
def similarityExceeds (msgContent prompt : String) : Bool :=
  let msgWords := jsWords msgContent
  let promptWords := jsWords prompt
  let commonWords := commonWordCount msgWords promptWords
  decide (3 * max msgWords.length promptWords.length < 5 * commonWords)

/-- Embedding of `similarMessages`: the recent messages (their contents, in input
order) passing the similarity filter; a falsy (empty) content is rejected
by the `if (!msg.content) return false` guard. -/
def similarMessages (recentContents : List String) (prompt : String) :
    List String :=
  recentContents.filter (fun c => c != "" && similarityExceeds c prompt)

/-- Embedding of `isRepetitive = similarMessages.length > 0`. -/
def isRepetitive (recentContents : List String) (prompt : String) : Bool :=
  decide (0 < (similarMessages recentContents prompt).length)

/-- Embedding of the exemplar `lastResponse`, the content of the first similar message or the empty string. -/
def lastResponse (recentContents : List String) (prompt : String) : String :=
  (similarMessages recentContents prompt).headD ""

/-- Embedding of `createPromptTemplate`: the assembled system prompt.  The message
history is split on newlines, cut to the last 12 lines, blank (all
whitespace) lines dropped, cut again to the last 6, and interpolated into
the fixed template.  The `isRepetitive` and `lastResponse` parameters are
accepted but the template text never references them. -/
def createPromptTemplate (name instructions messageHistory : String)
    (repetitiveFlag : Bool) (lastResponseText : String)
    (prompt : String) : String :=
  let recentMessages :=
    jsSliceLast
      ((jsSliceLast (jsSplit messageHistory "\n") 12).filter
        (fun line => 0 < (trimStr line).length)) 6
  "<|system|>\nYou are " ++ name ++
    ". Stay focused on the current topic of discussion.\n\nCore Identity:\n" ++
    instructions ++
    "\n\nCONVERSATION HISTORY (Last 3 exchanges):\n" ++
    joinWith "\n" recentMessages ++
    "\n\nCURRENT TOPIC: " ++ prompt ++
    "\n\nRULES:\n1. STAY ON TOPIC: The user is asking about " ++ prompt ++
    ". Do NOT talk about yourself unless specifically asked\n2. NO REPETITION: Don\x27t repeat phrases from your recent messages shown above\n3. MEMORY ACTIVE: Reference the conversation history to maintain context\n4. FOCUSED RESPONSE: Address the current question directly\n\nCurrent question: " ++
    prompt ++
    "\nResponse as " ++ name ++
    ", focusing ONLY on the asked topic:\n<|assistant|>"

/-- The options object passed to `openai.chat.completions.create` in the
route (lines 184–195).  The float-valued sampling options are recorded in
tenths.  `abortSignal` stands for the optional `AbortSignal` a caller can
hand to the SDK (as a request option or `signal` field); the route passes
none, even though it created an `AbortController` whose `abort()` is
scheduled at `CONFIG.TIMEOUT_MS`. -/
structure ChatCompletionArgs where
  model : String
  temperatureTenths : Nat
  maxTokens : Nat
  presencePenaltyTenths : Nat
  topPTenths : Nat
  frequencyPenaltyTenths : Nat
  stream : Bool
  abortSignal : Option Unit

/-- The concrete argument record of the completion call in the route. -/
def routeCompletionArgs : ChatCompletionArgs :=
  ⟨"gpt-4-turbo-preview", 7, CONFIG_MAX_LENGTH, 7, 9, 5, true, none⟩

/-- Whether the `setTimeout(() => controller.abort(), CONFIG.TIMEOUT_MS)`
timer has fired, i.e. whether the outer `AbortController` is in the
aborted state, as a function of the elapsed wall-clock milliseconds. -/
def abortControllerAborted (elapsedMs : Nat) : Bool :=
  decide (CONFIG_TIMEOUT_MS ≤ elapsedMs)

/-- The `RateChecked` stage (route lines 71–99): `Promise.all` runs the
rate-limit gate, the persona load and the user-turn insert and joins all
three, so the user message row exists in the relational store when the
continuation runs; then a denied gate returns 429 and a missing persona
404.  The result is the message table after the stage and the early
response status, if any. -/
def rateCheckedStage (rateSuccess : Bool) (companionFound : Bool)
    (db : List MessageRec) (userId chatId prompt : String) :
    List MessageRec × Option Nat :=
  let db := db ++ [⟨prompt, "user", userId, chatId⟩]
  if !rateSuccess then (db, some 429)
  else if !companionFound then (db, some 404)
  else (db, none)

/-- The accumulation of `fullResponse` by the stream loop: for each chunk the
delta content (possibly `""`) is appended when truthy. -/
def accumulateResponse (chunks : List String) : String :=
  chunks.foldl (fun acc text => if text != "" then acc ++ text else acc) ""

/-- The streaming stage of the route (the `ReadableStream.start` body):
consume every chunk the completions stream yields, accumulate the full
response, and once the stream ends persist it — `writeToHistory` plus the
relational assistant-turn insert — exactly when the accumulated text is
longer than one character.  The first argument is the state of the outer
`AbortController` when the chunks arrive; the loop and the persistence
code never consult it (no `signal` was passed to the completions call and
the shadowing `controller` inside `start` is the stream controller), so
the behaviour of the stage does not depend on it. -/
def streamStage (timerAbortState : Bool) (chunks : List String) (st : Store)
    (now : Nat) (companionKey : CompanionKey) (db : List MessageRec)
    (userId chatId : String) : Store × List MessageRec × String :=
  let fullResponse := accumulateResponse chunks
  if 1 < fullResponse.length then
    ((writeToHistory st now (trimStr fullResponse) companionKey).1,
     db ++ [⟨trimStr fullResponse, "system", userId, chatId⟩],
     fullResponse)
  else
    (st, db, fullResponse)

/-! ## Definitions written from the words of the specification

These re-state parts of the specification for comparison with the source
embeddings above; they are not translations of the source. -/

/-- Word list as the specification describes it for the repetition check:
"lower-case, split on whitespace" (every whitespace character separates
words), empty fragments dropped. -/
def specWhitespaceWords (s : String) : List String :=
  ((splitFields Char.isWhitespace (jsToLower s).data).map
      (fun w => (⟨w⟩ : String))).filter (fun w => 0 < w.length)

/-- Per-text repetition test as the specification words it: multiset overlap over
whitespace-separated words, ratio above 0.6. -/
def specOverlapExceeds (msgContent prompt : String) : Bool :=
  let msgWords := specWhitespaceWords msgContent
  let promptWords := specWhitespaceWords prompt
  let commonWords := commonWordCount msgWords promptWords
  decide (3 * max msgWords.length promptWords.length < 5 * commonWords)

/-- Reading recent history as the specification states `readRecent`: the entries of the full
score window from 0 to now, most recent `max` of them, oldest first. -/
def readRecentSpec (st : Store) (now : Nat) (companionKey : CompanionKey)
    (maxEntries : Nat) : List Entry :=
  jsSliceLast
    ((st (generateRedisCompanionKey companionKey)).filter
      (fun e => decide (0 ≤ e.score) && decide (e.score ≤ now)))
    maxEntries

/-- The entries seeding should produce for the given lines when the write
counter starts at `c`: the lines in original order with consecutive
scores `c, c+1, …`. -/
def seedEntries : List String → Nat → List Entry
  | [], _ => []
  | line :: rest, c => ⟨line, c⟩ :: seedEntries rest (c + 1)

/-! ## Concrete instances used by witnesses and counterexamples -/

/-- A well-formed companion key. -/
def keyCU : CompanionKey := ⟨"companion1", "gpt-4", some "user1"⟩

/-- A companion key whose `userId` is the JS `undefined`. -/
def keyNoUser : CompanionKey := ⟨"companion1", "gpt-4", none⟩

/-- A store holding a single history entry for `keyCU`. -/
def storeOneHello : Store :=
  fun k => if k = "companion1-gpt-4-user1" then [⟨"hello", 5⟩] else []

/-- A store holding three score-sorted entries for `keyCU`, the last with
a score in the future of the read instant used by the witnesses. -/
def storeSorted3 : Store :=
  fun k =>
    if k = "companion1-gpt-4-user1" then
      [⟨"User: hi", 1⟩, ⟨"Bot: hello", 2⟩, ⟨"future", 99⟩]
    else []

/-! ## Lemmas about the sorted-set model -/

/-- String concatenation is associative. -/
theorem str_append_assoc (a b c : String) : a ++ b ++ c = a ++ (b ++ c) := by
  apply String.ext
  simp [String.data_append]

/-- Membership after an ordered insertion. -/
theorem mem_insertEntry {a e : Entry} {l : List Entry} :
    a ∈ insertEntry e l ↔ a = e ∨ a ∈ l := by
  induction l with
  | nil => simp [insertEntry]
  | cons x xs ih =>
    simp only [insertEntry]
    split
    · simp
    · simp only [List.mem_cons, ih]
      tauto

/-- Ordered insertion grows the list by one. -/
theorem length_insertEntry (e : Entry) (l : List Entry) :
    (insertEntry e l).length = l.length + 1 := by
  induction l with
  | nil => rfl
  | cons x xs ih =>
    simp only [insertEntry]
    split
    · rfl
    · simp [ih]

/-- An entry ordered after every element of the list is inserted at the
end. -/
theorem insertEntry_eq_append {e : Entry} {l : List Entry}
    (h : ∀ x ∈ l, entryLeb e x = false) : insertEntry e l = l ++ [e] := by
  induction l with
  | nil => rfl
  | cons x xs ih =>
    simp only [insertEntry]
    rw [h x (List.mem_cons_self x xs)]
    simp only [Bool.false_eq_true, if_false, List.cons_append]
    rw [ih (fun y hy => h y (List.mem_cons_of_mem x hy))]

/-- A filter that rejects nothing is the identity. -/
theorem filter_member_ne_eq_self {text : String} {l : List Entry}
    (h : text ∉ l.map Entry.member) :
    l.filter (fun e => e.member != text) = l := by
  rw [List.filter_eq_self]
  intro e he
  simp only [bne_iff_ne, ne_eq]
  intro hcontra
  exact h (List.mem_map.mpr ⟨e, he, hcontra⟩)

/-- Ordered insertion never produces the empty list. -/
theorem insertEntry_ne_nil (e : Entry) (l : List Entry) :
    insertEntry e l ≠ [] := by
  cases l with
  | nil => simp [insertEntry]
  | cons x xs =>
    simp only [insertEntry]
    split <;> simp

/-- A `ZADD` never produces the empty list. -/
theorem zaddOne_ne_nil (l : List Entry) (score : Nat) (member : String) :
    zaddOne l score member ≠ [] :=
  insertEntry_ne_nil _ _

/-- On a well-formed key, `writeToHistory` performs exactly one `ZADD` on
the derived key. -/
theorem writeToHistory_key_eq {companionKey : CompanionKey} {u : String}
    (hu : companionKey.userId = some u) (st : Store) (now : Nat)
    (text : String) :
    (writeToHistory st now text companionKey).1
        (generateRedisCompanionKey companionKey) =
      zaddOne (st (generateRedisCompanionKey companionKey)) now text := by
  simp [writeToHistory, hu, zaddStore]

/-- On a well-formed key, `writeToHistory` leaves every other key alone. -/
theorem writeToHistory_other {companionKey : CompanionKey} {u : String}
    (hu : companionKey.userId = some u) (st : Store) (now : Nat)
    (text : String) {k : String}
    (hk : k ≠ generateRedisCompanionKey companionKey) :
    (writeToHistory st now text companionKey).1 k = st k := by
  simp [writeToHistory, hu, zaddStore, hk]

/-- The seeding loop leaves other keys alone. -/
theorem seedLoop_other (key : String) (lines : List String) :
    ∀ (st : Store) (c : Nat) {k : String}, k ≠ key →
      seedLoop key st lines c k = st k := by
  induction lines with
  | nil => intro st c k hk; rfl
  | cons line rest ih =>
    intro st c k hk
    simp only [seedLoop]
    rw [ih _ _ hk]
    simp [zaddStore, hk]

/-- The seeding loop ends with a non-empty entry list at its key whenever
it writes at least one line or the key already had entries. -/
theorem seedLoop_key_ne_nil (key : String) (lines : List String) :
    ∀ (st : Store) (c : Nat), (lines ≠ [] ∨ st key ≠ []) →
      seedLoop key st lines c key ≠ [] := by
  induction lines with
  | nil =>
    intro st c h
    cases h with
    | inl h => exact absurd rfl h
    | inr h => exact h
  | cons line rest ih =>
    intro st c _
    simp only [seedLoop]
    apply ih
    right
    simp [zaddStore, zaddOne_ne_nil]

/-- Seeding a key that already has entries is a no-op on the store. -/
theorem seedChatHistory_noop {st : Store} {content delimiter : String}
    {companionKey : CompanionKey}
    (h : st (generateRedisCompanionKey companionKey) ≠ []) :
    (seedChatHistory st content delimiter companionKey).1 = st := by
  simp [seedChatHistory, h]

/-- An entry with a strictly larger score is ordered strictly after. -/
theorem entryLeb_false_of_score_lt {e x : Entry} (h : x.score < e.score) :
    entryLeb e x = false := by
  have h1 : Nat.blt e.score x.score = false := by
    rw [← Bool.not_eq_true, Nat.blt_eq]
    omega
  have h2 : (e.score == x.score) = false := by
    rw [← Bool.not_eq_true, beq_iff_eq]
    omega
  simp [entryLeb, h1, h2]

/-- The fields mapped out of `seedEntries`. -/
theorem seedEntries_map_member (lines : List String) :
    ∀ c, (seedEntries lines c).map Entry.member = lines := by
  induction lines with
  | nil => intro c; rfl
  | cons line rest ih => intro c; simp [seedEntries, ih]

/-- The scores of `seedEntries` are the consecutive integers from `c`. -/
theorem seedEntries_map_score (lines : List String) :
    ∀ c, (seedEntries lines c).map Entry.score = List.range' c lines.length := by
  induction lines with
  | nil => intro c; rfl
  | cons line rest ih => intro c; simp [seedEntries, List.range', ih]

/-- The seeding loop on a key whose current entries all have scores below
the counter and members disjoint from the (duplicate-free) lines appends
exactly the expected seed entries. -/
theorem seedLoop_key_eq (key : String) (lines : List String) :
    ∀ (st : Store) (c : Nat),
      (∀ e ∈ st key, e.score < c) → lines.Nodup →
      (∀ l ∈ lines, ∀ e ∈ st key, e.member ≠ l) →
      seedLoop key st lines c key = st key ++ seedEntries lines c := by
  induction lines with
  | nil => intro st c _ _ _; simp [seedLoop, seedEntries]
  | cons line rest ih =>
    intro st c hscore hnodup hfresh
    simp only [seedLoop, seedEntries]
    have hkeyval : zaddStore st key c line key = st key ++ [⟨line, c⟩] := by
      have hfil : (st key).filter (fun e => e.member != line) = st key :=
        filter_member_ne_eq_self (fun hmem => by
          rcases List.mem_map.mp hmem with ⟨e, he, hemem⟩
          exact hfresh line (List.mem_cons_self line rest) e he hemem)
      have hins : insertEntry ⟨line, c⟩ (st key) = st key ++ [⟨line, c⟩] :=
        insertEntry_eq_append
          (fun x hx => entryLeb_false_of_score_lt (hscore x hx))
      simp [zaddStore, zaddOne, hfil, hins]
    have ihres := ih (zaddStore st key c line) (c + 1)
      (by
        rw [hkeyval]
        intro e he
        rcases List.mem_append.mp he with h | h
        · exact Nat.lt_succ_of_lt (hscore e h)
        · simp only [List.mem_singleton] at h
          subst h
          exact Nat.lt_succ_self c)
      (List.Nodup.of_cons hnodup)
      (by
        rw [hkeyval]
        intro l hl e he
        rcases List.mem_append.mp he with h | h
        · exact hfresh l (List.mem_cons_of_mem line hl) e h
        · simp only [List.mem_singleton] at h
          subst h
          intro hcontra
          simp only at hcontra
          subst hcontra
          exact (List.nodup_cons.mp hnodup).1 hl)
    rw [ihres, hkeyval, List.append_assoc]
    rfl

/-- Taking the last `n` elements commutes with `map`. -/
theorem jsSliceLast_map (f : α → β) (l : List α) (n : Nat) :
    jsSliceLast (l.map f) n = (jsSliceLast l n).map f := by
  simp [jsSliceLast, List.map_drop, List.length_map]

/-- The last `n` elements are at most `n` many. -/
theorem jsSliceLast_length_le (l : List α) (n : Nat) :
    (jsSliceLast l n).length ≤ n := by
  simp only [jsSliceLast, List.length_drop]
  omega

/-- The last `n` elements form a sublist. -/
theorem jsSliceLast_sublist (l : List α) (n : Nat) :
    (jsSliceLast l n).Sublist l :=
  List.drop_sublist _ _

/-! ## Claim C6 -/

/-- C6: for every input text and for every outcome of the embedding/query
step (the `similaritySearch` call, the only statement inside the `try`),
`vectorSearch` returns an ordinary result — never an error — and an
embedding or query error is converted to the empty document list. -/
theorem C6_vectorSearch_never_errors :
    ∀ (similaritySearch : String → Except String (List String))
      (recentChatHistory : String),
    (∃ docs, vectorSearch similaritySearch recentChatHistory = Except.ok docs) ∧
    (∀ e, similaritySearch (truncateText recentChatHistory 8000) = Except.error e →
      vectorSearch similaritySearch recentChatHistory = Except.ok []) := by
  intro sim h
  constructor
  · cases hs : sim (truncateText h 8000) with
    | ok docs => exact ⟨docs, by simp only [vectorSearch, hs]⟩
    | error e => exact ⟨[], by simp only [vectorSearch, hs]⟩
  · intro e he
    simp only [vectorSearch, he]

/-- Witness for C6: a failing similarity search yields the empty result. -/
theorem C6_witness :
    vectorSearch (fun _ => Except.error "embedding failed") "hello" =
      Except.ok [] :=
  (C6_vectorSearch_never_errors (fun _ => Except.error "embedding failed")
    "hello").2 "embedding failed" rfl

/-! ## Claim C7 -/

/-- C7: the rate gate, the persona load and the user-turn insert are
joined by one `Promise.all`, so after the stage the user turn is in the
relational store for every gate outcome; when the gate denies, the stage
responds 429 — with the turn already written. -/
theorem C7_user_turn_written_despite_429 :
    ∀ (rateSuccess companionFound : Bool) (db : List MessageRec)
      (userId chatId prompt : String),
    (⟨prompt, "user", userId, chatId⟩ : MessageRec) ∈
        (rateCheckedStage rateSuccess companionFound db userId chatId prompt).1 ∧
    (rateSuccess = false →
      (rateCheckedStage rateSuccess companionFound db userId chatId prompt).2 =
        some 429) := by
  intro rs cf db uid cid p
  constructor
  · cases rs <;> cases cf <;> simp [rateCheckedStage]
  · intro h
    subst h
    simp [rateCheckedStage]

/-- Witness for C7: a denied gate still leaves the user turn in the
relational store and the response is 429. -/
theorem C7_witness :
    (⟨"hi", "user", "user1", "companion1"⟩ : MessageRec) ∈
        (rateCheckedStage false true [] "user1" "companion1" "hi").1 ∧
    (rateCheckedStage false true [] "user1" "companion1" "hi").2 = some 429 :=
  ⟨(C7_user_turn_written_despite_429 false true [] "user1" "companion1" "hi").1,
   (C7_user_turn_written_despite_429 false true [] "user1" "companion1" "hi").2
     rfl⟩

/-! ## Claim C1 -/

/-- C1 counterexample: appending, at time 10, a text that is already an
entry (score 5) of the same key yields one entry with the updated score —
not two retained entries — and the original entry with its order score 5
is gone: the sorted set keys entries by member, and `ZADD` of an existing
member updates its score. -/
theorem C1_counterexample :
    (writeToHistory storeOneHello 10 "hello" keyCU).1 "companion1-gpt-4-user1" =
      [⟨"hello", 10⟩] ∧
    ((writeToHistory storeOneHello 10 "hello" keyCU).1
        "companion1-gpt-4-user1").length ≠ 2 ∧
    (⟨"hello", 5⟩ : Entry) ∉
      (writeToHistory storeOneHello 10 "hello" keyCU).1
        "companion1-gpt-4-user1" := by
  decide

/-- C1 amended: history appends via `writeToHistory` never delete entries
and never touch entries of other members or other keys: appending a text
that is not yet a member adds one entry and retains every existing entry
with its score (in particular two distinct texts written with the same
score are both retained), while appending a text that is already a member
updates the single entry of that member to the new score instead of creating a
second entry. -/
theorem C1_amended_append_semantics :
    ∀ (st : Store) (companionKey : CompanionKey) (u text : String) (now : Nat),
    companionKey.userId = some u →
    (∀ k, k ≠ generateRedisCompanionKey companionKey →
      (writeToHistory st now text companionKey).1 k = st k) ∧
    ((⟨text, now⟩ : Entry) ∈
      (writeToHistory st now text companionKey).1
        (generateRedisCompanionKey companionKey)) ∧
    (∀ e ∈ st (generateRedisCompanionKey companionKey), e.member ≠ text →
      e ∈ (writeToHistory st now text companionKey).1
        (generateRedisCompanionKey companionKey)) ∧
    (∀ e ∈ (writeToHistory st now text companionKey).1
        (generateRedisCompanionKey companionKey),
      e = ⟨text, now⟩ ∨
        (e ∈ st (generateRedisCompanionKey companionKey) ∧ e.member ≠ text)) ∧
    (text ∉ (st (generateRedisCompanionKey companionKey)).map Entry.member →
      ((writeToHistory st now text companionKey).1
          (generateRedisCompanionKey companionKey)).length =
        (st (generateRedisCompanionKey companionKey)).length + 1) ∧
    (∀ text2, text2 ≠ text →
      (⟨text, now⟩ : Entry) ∈
        (writeToHistory (writeToHistory st now text companionKey).1 now text2
            companionKey).1 (generateRedisCompanionKey companionKey) ∧
      (⟨text2, now⟩ : Entry) ∈
        (writeToHistory (writeToHistory st now text companionKey).1 now text2
            companionKey).1 (generateRedisCompanionKey companionKey)) := by
  intro st companionKey u text now hu
  have hkey := writeToHistory_key_eq hu st now text
  refine ⟨?_, ?_, ?_, ?_, ?_, ?_⟩
  · intro k hk
    exact writeToHistory_other hu st now text hk
  · rw [hkey]
    exact mem_insertEntry.mpr (Or.inl rfl)
  · intro e he hno
    rw [hkey]
    apply mem_insertEntry.mpr
    right
    exact List.mem_filter.mpr ⟨he, by simpa using hno⟩
  · intro e he
    rw [hkey] at he
    rcases mem_insertEntry.mp he with h | h
    · exact Or.inl h
    · rcases List.mem_filter.mp h with ⟨hmem, hne⟩
      exact Or.inr ⟨hmem, by simpa using hne⟩
  · intro hno
    rw [hkey]
    unfold zaddOne
    rw [filter_member_ne_eq_self hno, length_insertEntry]
  · intro text2 hne
    have hkey2 := writeToHistory_key_eq hu
      (writeToHistory st now text companionKey).1 now text2
    constructor
    · rw [hkey2]
      apply mem_insertEntry.mpr
      right
      apply List.mem_filter.mpr
      refine ⟨?_, by simpa using hne.symm⟩
      rw [hkey]
      exact mem_insertEntry.mpr (Or.inl rfl)
    · rw [hkey2]
      exact mem_insertEntry.mpr (Or.inl rfl)

/-- Witness for C1: writing a fresh text to a key holding one entry keeps
the old entry and adds the new one. -/
theorem C1_witness :
    ((⟨"world", 9⟩ : Entry) ∈
      (writeToHistory storeOneHello 9 "world" keyCU).1
        "companion1-gpt-4-user1") ∧
    ((writeToHistory storeOneHello 9 "world" keyCU).1
        "companion1-gpt-4-user1").length = 1 + 1 := by
  have h := C1_amended_append_semantics storeOneHello keyCU "user1" "world" 9
    rfl
  exact ⟨h.2.1, h.2.2.2.2.1 (by decide)⟩

/-! ## Claim C10 -/

/-- C10: with an undefined `userId`, `writeToHistory` and
`readLatestHistory` guard and return the empty string without touching the
store, while `seedChatHistory` has no guard: it derives the key (the
`undefined` interpolates as the text "undefined") and seeds entries under
it. -/
theorem C10_seed_lacks_key_guard :
    ∀ (st : Store) (now : Nat) (text content delimiter : String)
      (companionKey : CompanionKey),
    companionKey.userId = none →
    writeToHistory st now text companionKey = (st, Sum.inl "") ∧
    readLatestHistory st now companionKey = "" ∧
    generateRedisCompanionKey companionKey =
      companionKey.companionName ++ "-" ++ companionKey.modelName ++ "-" ++
        "undefined" ∧
    (st (generateRedisCompanionKey companionKey) = [] →
      jsSplit content delimiter ≠ [] →
      (seedChatHistory st content delimiter companionKey).1
          (generateRedisCompanionKey companionKey) ≠ []) := by
  intro st now text content delimiter companionKey hu
  refine ⟨?_, ?_, ?_, ?_⟩
  · simp [writeToHistory, hu]
  · simp [readLatestHistory, hu]
  · simp [generateRedisCompanionKey, hu, jsShow]
  · intro hempty hlines
    simp only [seedChatHistory, hempty]
    simp only [ne_eq, not_true_eq_false, if_false]
    exact seedLoop_key_ne_nil _ _ _ _ (Or.inl hlines)

/-- Witness for C10: a concrete undefined-user key; reads and writes
degrade to empty results but seeding writes under
"companion1-gpt-4-undefined". -/
theorem C10_witness :
    writeToHistory emptyStore 5 "x" keyNoUser = (emptyStore, Sum.inl "") ∧
    readLatestHistory emptyStore 5 keyNoUser = "" ∧
    (seedChatHistory emptyStore "line1\nline2" "\n" keyNoUser).1
        (generateRedisCompanionKey keyNoUser) ≠ [] := by
  have h := C10_seed_lacks_key_guard emptyStore 5 "x" "line1\nline2" "\n"
    keyNoUser rfl
  exact ⟨h.1, h.2.1, h.2.2.2 (by decide) (by decide)⟩

/-! ## Claim C3 -/

/-- C3 counterexample: on a fresh key the seeding does run, but the
JavaScript return value of the function is `undefined` (here `none`) — never
the boolean `true` the claim states (nor `false` on the no-op path); and
for a seed whose split contains the same line twice, the key afterwards
holds a single entry for that line at the last counter value, not one
entry per line in original order. -/
theorem C3_counterexample :
    (seedChatHistory emptyStore "a\n\nb" "\n\n" keyCU).2 = none ∧
    (seedChatHistory emptyStore "a\n\nb" "\n\n" keyCU).2 ≠ some true ∧
    (seedChatHistory emptyStore "a\n\nb" "\n\n" keyCU).1
        "companion1-gpt-4-user1" ≠ [] ∧
    jsSplit "a\n\na" "\n\n" = ["a", "a"] ∧
    (seedChatHistory emptyStore "a\n\na" "\n\n" keyCU).1
        "companion1-gpt-4-user1" = [⟨"a", 1⟩] := by
  decide

/-- C3 amended: `seedChatHistory` splits the content on the delimiter; on
a key with entries it is a no-op; on a fresh key it writes the lines with
the counter scores 0, 1, 2, … and — when the lines are pairwise distinct —
the key afterwards holds exactly the lines in original order with strictly
increasing scores starting at 0 (a repeated line is kept once, at its last
score); the function returns `undefined`, not a boolean; and seeding twice
is the same as seeding once. -/
theorem C3_amended_seed_semantics :
    ∀ (st : Store) (content delimiter : String) (companionKey : CompanionKey),
    ((seedChatHistory st content delimiter companionKey).2 = none) ∧
    (st (generateRedisCompanionKey companionKey) ≠ [] →
      (seedChatHistory st content delimiter companionKey).1 = st) ∧
    (st (generateRedisCompanionKey companionKey) = [] →
      (jsSplit content delimiter).Nodup →
      (seedChatHistory st content delimiter companionKey).1
          (generateRedisCompanionKey companionKey) =
        seedEntries (jsSplit content delimiter) 0 ∧
      (∀ k, k ≠ generateRedisCompanionKey companionKey →
        (seedChatHistory st content delimiter companionKey).1 k = st k)) ∧
    ((seedEntries (jsSplit content delimiter) 0).map Entry.member =
      jsSplit content delimiter) ∧
    ((seedEntries (jsSplit content delimiter) 0).map Entry.score =
      List.range (jsSplit content delimiter).length) ∧
    ((seedChatHistory (seedChatHistory st content delimiter companionKey).1
        content delimiter companionKey).1 =
      (seedChatHistory st content delimiter companionKey).1) := by
  intro st content delimiter companionKey
  refine ⟨?_, ?_, ?_, seedEntries_map_member _ _, ?_, ?_⟩
  · simp only [seedChatHistory]
    split <;> rfl
  · intro h
    simp [seedChatHistory, h]
  · intro hempty hnodup
    constructor
    · simp only [seedChatHistory, hempty, ne_eq, not_true_eq_false, if_false]
      rw [seedLoop_key_eq _ _ _ _ (by rw [hempty]; intro e he; cases he)
        hnodup (by rw [hempty]; intro l _ e he; cases he), hempty]
      rfl
    · intro k hk
      simp only [seedChatHistory, hempty, ne_eq, not_true_eq_false, if_false]
      exact seedLoop_other _ _ _ _ hk
  · rw [seedEntries_map_score, List.range_eq_range']
  · by_cases hkey : st (generateRedisCompanionKey companionKey) = []
    · by_cases hlines : jsSplit content delimiter = []
      · have h1 : (seedChatHistory st content delimiter companionKey).1 = st := by
          simp only [seedChatHistory, hkey, ne_eq, not_true_eq_false, if_false,
            hlines]
          rfl
        rw [h1]
        exact h1
      · have h2 : (seedChatHistory st content delimiter companionKey).1
            (generateRedisCompanionKey companionKey) ≠ [] := by
          simp only [seedChatHistory, hkey, ne_eq, not_true_eq_false, if_false]
          exact seedLoop_key_ne_nil _ _ _ _ (Or.inl hlines)
        exact seedChatHistory_noop h2
    · have h1 : (seedChatHistory st content delimiter companionKey).1 = st := by
        exact seedChatHistory_noop hkey
      rw [h1]
      exact h1

/-- Witness for C3: seeding a fresh key with two distinct lines yields the
two entries with scores 0 and 1 in order. -/
theorem C3_witness :
    (seedChatHistory emptyStore "l1\n\nl2" "\n\n" keyCU).1
        "companion1-gpt-4-user1" = [⟨"l1", 0⟩, ⟨"l2", 1⟩] := by
  have h := (C3_amended_seed_semantics emptyStore "l1\n\nl2" "\n\n"
    keyCU).2.2.1 (by decide) (by decide)
  have hk : generateRedisCompanionKey keyCU = "companion1-gpt-4-user1" := by
    decide
  have hsplit : jsSplit "l1\n\nl2" "\n\n" = ["l1", "l2"] := by decide
  rw [hk] at h
  rw [h.1, hsplit]
  rfl

/-! ## Claim C4 -/

/-- C4: for a well-formed key and a score-sorted entry list under it,
`readLatestHistory` returns exactly the most recent 100 entries of the
score window 0‥now, oldest first (the slice-reverse followed by the
reverse-join cancel), joined with newlines; the returned window is
non-decreasing in score and at most 100 long. -/
theorem C4_readLatestHistory_chronological :
    ∀ (st : Store) (now : Nat) (companionKey : CompanionKey) (u : String),
    companionKey.userId = some u →
    List.Pairwise (fun a b => a.score ≤ b.score)
      (st (generateRedisCompanionKey companionKey)) →
    readLatestHistory st now companionKey =
      joinWith "\n"
        ((readRecentSpec st now companionKey 100).map Entry.member) ∧
    List.Pairwise (fun a b => a.score ≤ b.score)
      (readRecentSpec st now companionKey 100) ∧
    (readRecentSpec st now companionKey 100).length ≤ 100 := by
  intro st now companionKey u hu hsorted
  refine ⟨?_, ?_, jsSliceLast_length_le _ _⟩
  · simp only [readLatestHistory, hu, zrangeByScore, readRecentSpec,
      List.reverse_reverse]
    rw [jsSliceLast_map]
  · exact List.Pairwise.sublist
      ((jsSliceLast_sublist _ _).trans (List.filter_sublist _)) hsorted

/-- Witness for C4: three sorted entries, one beyond the read instant;
the read returns the two in-window entries oldest first. -/
theorem C4_witness :
    readLatestHistory storeSorted3 50 keyCU =
      joinWith "\n"
        ((readRecentSpec storeSorted3 50 keyCU 100).map Entry.member) ∧
    readLatestHistory storeSorted3 50 keyCU = "User: hi\nBot: hello" := by
  have h := C4_readLatestHistory_chronological storeSorted3 50 keyCU "user1"
    rfl (by decide)
  exact ⟨h.1, by decide⟩

/-! ## Claim C5 -/

/-- The head of a filtered list (with default) is the first match. -/
theorem filter_headD_eq_find (p : α → Bool) (l : List α) (d : α) :
    (l.filter p).headD d = (l.find? p).getD d := by
  induction l with
  | nil => rfl
  | cons a l ih =>
    simp only [List.filter, List.find?]
    cases p a <;> simp [ih]

/-- Overlap against an empty word list is zero. -/
theorem commonWordCount_right_nil (ws : List String) :
    commonWordCount ws [] = 0 := by
  apply List.sum_eq_zero
  intro x hx
  rcases List.mem_map.mp hx with ⟨w, _, hw⟩
  simp only [List.count_nil, Nat.min_zero] at hw
  omega

/-- C5 counterexample: the source splits on the literal space character,
not on whitespace.  For the recent text "hi\nthere" and the prompt
"hi there" the whitespace-split overlap ratio of the claim is 1 (> 0.6), so the
claim says the candidate is flagged — but the space-split word
lists of the code share no word and the candidate is not flagged. -/
theorem C5_counterexample :
    isRepetitive ["hi\nthere"] "hi there" = false ∧
    specOverlapExceeds "hi\nthere" "hi there" = true ∧
    specWhitespaceWords "hi\nthere" = ["hi", "there"] ∧
    jsWords "hi\nthere" = ["hi\nthere"] := by
  decide

/-- C5 amended: with words obtained by lower-casing and splitting on the
space character (not on all whitespace), the candidate is flagged iff some
recent text is non-empty and its multiset overlap ratio with the prompt
exceeds 0.6 (`5·common > 3·max`), the exemplar is the first such match in
input order, and an empty word list on either side is never flagged. -/
theorem C5_amended_repetition_check :
    ∀ (recentContents : List String) (prompt : String),
    (isRepetitive recentContents prompt = true ↔
      ∃ c ∈ recentContents, c ≠ "" ∧ similarityExceeds c prompt = true) ∧
    (lastResponse recentContents prompt =
      ((recentContents.find?
          (fun c => c != "" && similarityExceeds c prompt)).getD "")) ∧
    (∀ c, jsWords c = [] ∨ jsWords prompt = [] →
      similarityExceeds c prompt = false) := by
  intro recents prompt
  refine ⟨?_, ?_, ?_⟩
  · constructor
    · intro h
      rw [isRepetitive, decide_eq_true_eq, List.length_pos] at h
      obtain ⟨x, hx⟩ := List.exists_mem_of_ne_nil _ h
      rcases List.mem_filter.mp hx with ⟨hmem, hp⟩
      simp only [Bool.and_eq_true, bne_iff_ne, ne_eq] at hp
      exact ⟨x, hmem, hp.1, hp.2⟩
    · rintro ⟨c, hc, hne, hsim⟩
      rw [isRepetitive, decide_eq_true_eq, List.length_pos]
      intro hnil
      have hmem : c ∈ similarMessages recents prompt :=
        List.mem_filter.mpr ⟨hc, by simp [hne, hsim]⟩
      rw [hnil] at hmem
      cases hmem
  · exact filter_headD_eq_find _ _ _
  · intro c hc
    cases hc with
    | inl h =>
      simp [similarityExceeds, commonWordCount, h]
    | inr h =>
      simp [similarityExceeds, h, commonWordCount_right_nil]

/-- Witness for C5: a repeated greeting is flagged, the first match is
returned, and an empty candidate is never flagged. -/
theorem C5_witness :
    isRepetitive ["xyz", "hello there"] "hello there" = true ∧
    lastResponse ["xyz", "hello there"] "hello there" = "hello there" ∧
    similarityExceeds "" "hello there" = false := by
  have h := C5_amended_repetition_check ["xyz", "hello there"] "hello there"
  refine ⟨?_, ?_, ?_⟩
  · exact h.1.mpr ⟨"hello there", by decide, by decide, by decide⟩
  · rw [h.2.1]
    decide
  · exact h.2.2 "" (Or.inl (by decide))

/-! ## Claim C2 -/

/-- C2: the route schedules `controller.abort()` at `CONFIG.TIMEOUT_MS`,
but no abort signal is attached to the completions call
(`routeCompletionArgs.abortSignal = none`) and the stream loop never
consults the controller, so the timer firing has no effect on the
streaming stage; concretely, with the timer already fired at 31000 ms the
in-flight chunks are still consumed to the end and the accumulated
"Hello world" (length > 1) is persisted to both the history store and the
relational store — the in-flight generation is not cancelled and
persistence is not skipped. -/
theorem C2_timeout_never_cancels :
    routeCompletionArgs.abortSignal = none ∧
    (∀ (a b : Bool) (chunks : List String) (st : Store) (now : Nat)
        (companionKey : CompanionKey) (db : List MessageRec) (uid cid : String),
      streamStage a chunks st now companionKey db uid cid =
        streamStage b chunks st now companionKey db uid cid) ∧
    abortControllerAborted 31000 = true ∧
    (streamStage (abortControllerAborted 31000) ["Hello", " world"]
        emptyStore 31000 keyCU [] "user1" "companion1").1
        "companion1-gpt-4-user1" = [⟨"Hello world", 31000⟩] ∧
    (streamStage (abortControllerAborted 31000) ["Hello", " world"]
        emptyStore 31000 keyCU [] "user1" "companion1").2.1 =
      [⟨"Hello world", "system", "user1", "companion1"⟩] := by
  refine ⟨rfl, fun a b chunks st now k db uid cid => rfl, ?_, ?_, ?_⟩ <;>
    decide

/-! ## Claim C9 -/

/-- C9: the assembled prompt is the same for any two values of the
repetition flag and exemplar text — the template never references them —
and the anti-repetition directive is present in the output
unconditionally. -/
theorem C9_prompt_independent_of_repetition :
    ∀ (name instructions messageHistory : String) (r1 r2 : Bool)
      (l1 l2 prompt : String),
    createPromptTemplate name instructions messageHistory r1 l1 prompt =
      createPromptTemplate name instructions messageHistory r2 l2 prompt ∧
    ∃ pre post,
      createPromptTemplate name instructions messageHistory r1 l1 prompt =
        pre ++
          "NO REPETITION: Don\x27t repeat phrases from your recent messages shown above" ++
          post := by
  intro name instructions messageHistory r1 r2 l1 l2 prompt
  constructor
  · rfl
  · refine ⟨"<|system|>\nYou are " ++ name ++
      ". Stay focused on the current topic of discussion.\n\nCore Identity:\n" ++
      instructions ++
      "\n\nCONVERSATION HISTORY (Last 3 exchanges):\n" ++
      joinWith "\n"
        (jsSliceLast
          ((jsSliceLast (jsSplit messageHistory "\n") 12).filter
            (fun line => 0 < (trimStr line).length)) 6) ++
      "\n\nCURRENT TOPIC: " ++ prompt ++
      "\n\nRULES:\n1. STAY ON TOPIC: The user is asking about " ++ prompt ++
      ". Do NOT talk about yourself unless specifically asked\n2. ",
      "\n3. MEMORY ACTIVE: Reference the conversation history to maintain context\n4. FOCUSED RESPONSE: Address the current question directly\n\nCurrent question: " ++
        prompt ++ "\nResponse as " ++ name ++
        ", focusing ONLY on the asked topic:\n<|assistant|>", ?_⟩
    have hL : ((". Do NOT talk about yourself unless specifically asked\n2. " ++
        "NO REPETITION: Don\x27t repeat phrases from your recent messages shown above" ++
        "\n3. MEMORY ACTIVE: Reference the conversation history to maintain context\n4. FOCUSED RESPONSE: Address the current question directly\n\nCurrent question: ") : String) =
        ". Do NOT talk about yourself unless specifically asked\n2. NO REPETITION: Don\x27t repeat phrases from your recent messages shown above\n3. MEMORY ACTIVE: Reference the conversation history to maintain context\n4. FOCUSED RESPONSE: Address the current question directly\n\nCurrent question: " := by
      rfl
    simp only [createPromptTemplate]
    rw [← hL]
    simp only [str_append_assoc]

/-! ## Claim C8 -/

/-- The first field of a predicate split holds no separator character. -/
theorem splitPredCore_fst_pfree (p : Char → Bool) (l : List Char) :
    ∀ c ∈ (splitPredCore p l).1, p c = false := by
  induction l with
  | nil => intro c hc; cases hc
  | cons a l ih =>
    intro c hc
    cases hpa : p a with
    | true =>
      simp only [splitPredCore, hpa, if_true] at hc
      cases hc
    | false =>
      simp only [splitPredCore, hpa, Bool.false_eq_true, if_false] at hc
      rcases List.mem_cons.mp hc with h | h
      · subst h; exact hpa
      · exact ih c h

/-- The later fields of a predicate split hold no separator character. -/
theorem splitPredCore_snd_pfree (p : Char → Bool) (l : List Char) :
    ∀ w ∈ (splitPredCore p l).2, ∀ c ∈ w, p c = false := by
  induction l with
  | nil => intro w hw; cases hw
  | cons a l ih =>
    intro w hw c hc
    cases hpa : p a with
    | true =>
      simp only [splitPredCore, hpa, if_true] at hw
      rcases List.mem_cons.mp hw with h | h
      · subst h; exact splitPredCore_fst_pfree p l c hc
      · exact ih w h c hc
    | false =>
      simp only [splitPredCore, hpa, Bool.false_eq_true, if_false] at hw
      exact ih w hw c hc

/-- Splitting after a separator-free prefix prepends it to the first
field. -/
theorem splitPredCore_append_pfree (p : Char → Bool) (w : List Char)
    (cs : List Char) (hw : ∀ c ∈ w, p c = false) :
    splitPredCore p (w ++ cs) =
      (w ++ (splitPredCore p cs).1, (splitPredCore p cs).2) := by
  induction w with
  | nil => simp
  | cons a w ih =>
    have ha : p a = false := hw a (List.mem_cons_self a w)
    simp only [List.cons_append, splitPredCore, ha, Bool.false_eq_true,
      if_false, List.append_eq]
    rw [ih (fun c hc => hw c (List.mem_cons_of_mem a hc))]

/-- Joining with single spaces through `String.data` is the character-level join. -/
theorem joinWith_space_data (l : List String) :
    (joinWith " " l).data = charJoinSp (l.map String.data) := by
  induction l with
  | nil => rfl
  | cons x xs ih =>
    cases xs with
    | nil => rfl
    | cons y ys =>
      simp only [joinWith, charJoinSp, List.map, String.data_append, ih]
      simp [List.append_assoc]

/-- Splitting the space-join of separator-free fields (all but the first
non-empty) recovers the fields. -/
theorem splitPredCore_roundtrip (ws : List (List Char)) :
    ∀ (w : List Char),
      (∀ c ∈ w, Char.isWhitespace c = false) →
      (∀ v ∈ ws, v ≠ [] ∧ ∀ c ∈ v, Char.isWhitespace c = false) →
      splitPredCore Char.isWhitespace (charJoinSp (w :: ws)) = (w, ws) := by
  induction ws with
  | nil =>
    intro w hw _
    simp only [charJoinSp]
    have h := splitPredCore_append_pfree Char.isWhitespace w [] hw
    simpa [splitPredCore] using h
  | cons v vs ih =>
    intro w hw hws
    simp only [charJoinSp]
    rw [splitPredCore_append_pfree Char.isWhitespace w _ hw]
    have hspace : Char.isWhitespace ' ' = true := rfl
    simp only [splitPredCore, hspace, if_true]
    rw [ih v (hws v (List.mem_cons_self v vs)).2
      (fun u hu => hws u (List.mem_cons_of_mem v hu))]
    simp

/-- Collapsing never empties a non-empty field list. -/
theorem collapseTail_ne_nil : ∀ (l : List (List Char)), l ≠ [] →
    collapseTail l ≠ [] := by
  intro l
  induction l with
  | nil => intro h; exact absurd rfl h
  | cons w ws ih =>
    intro _
    cases ws with
    | nil => simp [collapseTail]
    | cons v vs =>
      simp only [collapseTail]
      split
      · exact ih (by simp)
      · simp

/-- Collapsing a list of non-empty fields is the identity. -/
theorem collapseTail_eq_self : ∀ (l : List (List Char)),
    (∀ v ∈ l, v ≠ []) → collapseTail l = l := by
  intro l
  induction l with
  | nil => intro _; rfl
  | cons w ws ih =>
    intro h
    cases ws with
    | nil => rfl
    | cons v vs =>
      simp only [collapseTail, if_neg (h w (List.mem_cons_self w (v :: vs)))]
      rw [ih (fun u hu => h u (List.mem_cons_of_mem w hu))]

/-- Collapsing yields a sublist of the fields. -/
theorem collapseTail_sublist : ∀ (l : List (List Char)),
    (collapseTail l).Sublist l := by
  intro l
  induction l with
  | nil => exact List.Sublist.refl _
  | cons w ws ih =>
    cases ws with
    | nil => exact List.Sublist.refl _
    | cons v vs =>
      simp only [collapseTail]
      split
      · exact ih.trans (List.sublist_cons_self w (v :: vs))
      · exact ih.cons₂ w

/-- Every collapsed field except possibly the final one is non-empty. -/
theorem collapseTail_dropLast_ne_nil : ∀ (l : List (List Char)),
    ∀ v ∈ (collapseTail l).dropLast, v ≠ [] := by
  intro l
  induction l with
  | nil => intro v hv; cases hv
  | cons w ws ih =>
    intro u hu
    cases ws with
    | nil => cases hu
    | cons v vs =>
      simp only [collapseTail] at hu
      by_cases hw : w = []
      · rw [if_pos hw] at hu
        exact ih u hu
      · rw [if_neg hw] at hu
        have hct : collapseTail (v :: vs) ≠ [] :=
          collapseTail_ne_nil (v :: vs) (by simp)
        have hdl : (w :: collapseTail (v :: vs)).dropLast =
            w :: (collapseTail (v :: vs)).dropLast := by
          cases hc : collapseTail (v :: vs) with
          | nil => exact absurd hc hct
          | cons a as => rfl
        rw [hdl] at hu
        rcases List.mem_cons.mp hu with h | h
        · subst h; exact hw
        · exact ih u h

/-- A string over an empty character list is the empty string. -/
theorem string_mk_eq_empty_iff (l : List Char) :
    (⟨l⟩ : String) = "" ↔ l = [] := by
  constructor
  · intro h
    have := congrArg String.data h
    simpa using this
  · intro h
    subst h
    rfl

/-- Round trip: `split(/\s+/)` of a `join(' ')` of whitespace-free words
— all non-empty except possibly the first — recovers the words. -/
theorem jsSplitWS_joinWith (w : String) (ts : List String)
    (hw : ∀ c ∈ w.data, Char.isWhitespace c = false)
    (hts : ∀ t ∈ ts, t ≠ "" ∧ ∀ c ∈ t.data, Char.isWhitespace c = false) :
    jsSplitWS (joinWith " " (w :: ts)) = w :: ts := by
  have hdata : (joinWith " " (w :: ts)).data =
      charJoinSp (w.data :: ts.map String.data) := by
    rw [joinWith_space_data]
    rfl
  have hsplit : splitPredCore Char.isWhitespace
      (charJoinSp (w.data :: ts.map String.data)) = (w.data, ts.map String.data) := by
    apply splitPredCore_roundtrip (ts.map String.data) w.data hw
    intro v hv
    rcases List.mem_map.mp hv with ⟨t, ht, rfl⟩
    refine ⟨?_, (hts t ht).2⟩
    intro hnil
    exact (hts t ht).1 (String.ext hnil)
  have hne : ∀ v ∈ ts.map String.data, v ≠ [] := by
    intro v hv
    rcases List.mem_map.mp hv with ⟨t, ht, rfl⟩
    intro hnil
    exact (hts t ht).1 (String.ext hnil)
  simp only [jsSplitWS, hdata, hsplit]
  rw [collapseTail_eq_self _ hne, List.map_cons, List.map_map]
  have hcomp : ((fun v => (⟨v⟩ : String)) ∘ String.data) = id :=
    funext fun s => rfl
  rw [hcomp, List.map_id]

/-- C8: for `maxTokens = 8000`, text whose word count satisfies
`13 · count ≤ 80000` (i.e. `count × 1.3 ≤ 8000`) is returned unchanged,
and longer text is replaced by exactly its first `floor(8000/1.3) = 6153`
words joined with spaces — and the truncated result really has exactly
6153 words, so the embedded text never exceeds that budget. -/
theorem C8_truncateText :
    ∀ (text : String),
    (13 * (jsSplitWS text).length ≤ 80000 →
      truncateText text 8000 = text) ∧
    (80000 < 13 * (jsSplitWS text).length →
      truncateText text 8000 = joinWith " " ((jsSplitWS text).take 6153) ∧
      (jsSplitWS (truncateText text 8000)).length = 6153) := by
  intro text
  have hnum : 10 * 8000 / 13 = 6153 := by norm_num
  constructor
  · intro h
    have hcond : 13 * (jsSplitWS text).length ≤ 10 * 8000 := by omega
    simp only [truncateText, if_pos hcond]
  · intro h
    have hcond : ¬(13 * (jsSplitWS text).length ≤ 10 * 8000) := by omega
    have htr : truncateText text 8000 =
        joinWith " " ((jsSplitWS text).take 6153) := by
      simp only [truncateText, if_neg hcond, hnum]
    refine ⟨htr, ?_⟩
    have hwords : jsSplitWS text =
        (⟨(splitPredCore Char.isWhitespace text.data).1⟩ : String) ::
          (collapseTail (splitPredCore Char.isWhitespace text.data).2).map
            (fun v => (⟨v⟩ : String)) := by
      simp [jsSplitWS]
    set r1 := (splitPredCore Char.isWhitespace text.data).1 with hr1
    set ct := collapseTail (splitPredCore Char.isWhitespace text.data).2
      with hct
    have hlen : 6154 ≤ (jsSplitWS text).length := by omega
    have hctlen : 6153 ≤ ct.length := by
      rw [hwords] at hlen
      simp only [List.length_cons, List.length_map] at hlen
      omega
    have htake : (jsSplitWS text).take 6153 =
        (⟨r1⟩ : String) :: (ct.map (fun v => (⟨v⟩ : String))).take 6152 := by
      rw [hwords]
      exact List.take_succ_cons
    have hts : ∀ t ∈ (ct.map (fun v => (⟨v⟩ : String))).take 6152,
        t ≠ "" ∧ ∀ c ∈ t.data, Char.isWhitespace c = false := by
      intro t ht
      have hdl : (ct.map (fun v => (⟨v⟩ : String))).take 6152 =
          ((ct.map (fun v => (⟨v⟩ : String))).dropLast).take 6152 := by
        rw [List.dropLast_eq_take, List.take_take]
        congr 1
        simp only [List.length_map]
        omega
      rw [hdl, ← List.map_dropLast] at ht
      have ht2 := List.mem_of_mem_take ht
      rcases List.mem_map.mp ht2 with ⟨v, hv, rfl⟩
      constructor
      · intro hnil
        exact collapseTail_dropLast_ne_nil _ v hv
          ((string_mk_eq_empty_iff v).mp hnil)
      · intro c hc
        have hvct : v ∈ ct := List.mem_of_mem_dropLast hv
        have hvsnd : v ∈ (splitPredCore Char.isWhitespace text.data).2 := by
          have := collapseTail_sublist
            (splitPredCore Char.isWhitespace text.data).2
          rw [← hct] at this
          exact this.mem hvct
        exact splitPredCore_snd_pfree Char.isWhitespace text.data v hvsnd c hc
    have hround := jsSplitWS_joinWith (⟨r1⟩ : String)
      ((ct.map (fun v => (⟨v⟩ : String))).take 6152)
      (by
        intro c hc
        exact splitPredCore_fst_pfree Char.isWhitespace text.data c hc)
      hts
    rw [htr, htake, hround]
    simp only [List.length_cons, List.length_take, List.length_map]
    omega

/-- Witness for C8: a two-word text is within budget and is returned
unchanged. -/
theorem C8_witness :
    13 * (jsSplitWS "a b").length ≤ 80000 ∧
    truncateText "a b" 8000 = "a b" :=
  ⟨by decide, (C8_truncateText "a b").1 (by decide)⟩

end Arcana
